import Mathlib

/-!
Verification of the event-kit request orchestrator (APIManager), its bounded
request queue, default cache strategy, typed event bus, interceptor pipeline
and metrics collector.  Each definition is a shallow embedding of the
corresponding TypeScript source:

* `shouldRetry`        — src/api-manager/api-manager.ts, `APIManager.shouldRetry`
* `getRetryDelayMs`    — src/api-manager/api-manager.ts, `APIManager.getRetryDelayMs`
* `MetricsCollector.*` — src/api-manager/metrics-collector.ts
* `runOnce`, `runWithRetries`, `requestRun`, `abort`, `markCanceled`,
  `emitCanceledOnce`  — src/api-manager/api-manager.ts
* `QueueState` steps   — request-queue.ts (`RequestQueue`)
* `shouldCacheStrategy`— default-cache-strategy.ts (`DefaultCacheStrategy.shouldCache`)
* `emitModel`          — src/core/typed-event-bus.ts (`emit` with empty middleware chains)
* `registerAll` etc.   — src/api-manager/api-manager.ts (`use`, `applyRequestInterceptors`,
  `applyResponseInterceptors`, `applyErrorInterceptors`)

Adapter behaviour, timers and the JS event loop are represented by explicit
environment parameters (`AttemptOutcome`, `AttemptEnv`, queue `QStep`s): every
theorem quantifies over the environment choices the runtime could make.
-/

namespace EventKit

/-! ## Error model and retry policy (api-manager.ts `shouldRetry`) -/

/-- An `ApiError` as the retry logic sees it: its `code` string and its
optional numeric `status` (JS `status?: number`). -/
structure ApiErr where
  code : String
  status : Option Nat
  deriving DecidableEq, Repr

/-- `RETRY_STATUS_CODES` from types.ts: `[408, 429, 500, 502, 503, 504]`. -/
def RETRY_STATUS_CODES : List Nat := [408, 429, 500, 502, 503, 504]

/-- Per-request `retryOptions`.  The custom `shouldRetry(req, err)` predicate is
modelled already specialised to its request argument (it only ever receives the
request that owns it), so it is a function of the error alone. -/
structure RetryOptions where
  maxRetries : Option Nat
  customShouldRetry : Option (ApiErr → Bool)

/-- The request fields the orchestrator's control flow reads: the
`metadata.isRevalidate` flag, the mutable `retryCount` and the `retryOptions`. -/
structure Req where
  isRevalidate : Bool
  retryCount : Nat
  retryOptions : RetryOptions

/-- The orchestrator configuration fields used by the modelled paths. -/
structure Config where
  maxRetries : Nat

/-- JS truthiness of `err.status` (`undefined` and `0` are falsy). -/
def statusTruthy (err : ApiErr) : Bool :=
  match err.status with
  | some s => s ≠ 0
  | none => false

/-- `APIManager.shouldRetry` (api-manager.ts lines 826–850), line by line:
`CANCELED` is never retried; a custom predicate wins; otherwise the retry
count is checked against `maxRetries`, then `TIMEOUT`, then a truthy status
contained in `RETRY_STATUS_CODES`, and finally
`!err.status && err.code === 'NETWORK_ERROR'`. -/
def shouldRetry (cfg : Config) (req : Req) (err : ApiErr) : Bool :=
  if err.code = "CANCELED" then false
  else
    match req.retryOptions.customShouldRetry with
    | some f => f err
    | none =>
      let maxR := req.retryOptions.maxRetries.getD cfg.maxRetries
      if req.retryCount ≥ maxR then false
      else if err.code = "TIMEOUT" then true
      else if statusTruthy err && (err.status.getD 0) ∈ RETRY_STATUS_CODES then true
      else !statusTruthy err && err.code = "NETWORK_ERROR"

/-- The retry decision as the specification words it: `CANCELED` is never
retried; a custom predicate decides when supplied; otherwise retry exactly when
the retry count is still below `maxRetries` and the error is a `TIMEOUT`, or a
transport error without a status (`NETWORK_ERROR`), or carries a status in
`{408, 429, 500, 502, 503, 504}`. -/
def specShouldRetry (cfg : Config) (req : Req) (err : ApiErr) : Bool :=
  if err.code = "CANCELED" then false
  else
    match req.retryOptions.customShouldRetry with
    | some f => f err
    | none =>
      decide (req.retryCount < req.retryOptions.maxRetries.getD cfg.maxRetries) &&
        (err.code = "TIMEOUT" ||
          (err.status = none && err.code = "NETWORK_ERROR") ||
          (match err.status with
           | some s => decide (s ∈ RETRY_STATUS_CODES)
           | none => false))

/-! ## Backoff delay (api-manager.ts `getRetryDelayMs`)

`Math.random()` is modelled by an explicit draw `r ∈ [0, 1)`; arithmetic is
over `ℚ` (JS doubles carry no overflow at these magnitudes). -/

/-- `getRetryDelayMs` (api-manager.ts lines 487–493):
`base = retryDelay * 2^(retryCount-1)`, `j = base * jitter * (2r - 1)`,
result `max(0, base + j)`. -/
def getRetryDelayMs (retryDelay jitter : ℚ) (retryCount : Nat) (r : ℚ) : ℚ :=
  let base := retryDelay * 2 ^ (retryCount - 1)
  let j := base * jitter * (r * 2 - 1)
  max 0 (base + j)

/-! ## Metrics collector (metrics-collector.ts)

Counters are `Nat`; JS `Math.max(0, n - 1)` coincides with truncated
subtraction and `clamp0` is the identity on `Nat`. -/

/-- `RequestEndReason` from types.ts. -/
inductive EndReason
  | canceled
  | error
  | success
  | timeout
  deriving DecidableEq, Repr

/-- The `ApiMetrics` record (`createEmptyMetrics` shape). -/
structure MetricsData where
  cacheHit : Nat
  cacheMiss : Nat
  cacheSize : Nat
  cacheStale : Nat
  queueActive : Nat
  queueLength : Nat
  queuePending : Nat
  reqActive : Nat
  reqError : Nat
  reqRetry : Nat
  reqSuccess : Nat
  reqTimeout : Nat
  reqTotal : Nat
  deriving DecidableEq, Repr

/-- `createEmptyMetrics()`. -/
def emptyMetrics : MetricsData := ⟨0, 0, 0, 0, 0, 0, 0, 0, 0, 0, 0, 0, 0⟩

/-- `MetricsCollector` with its `enabled` flag. -/
structure MetricsCollector where
  enabled : Bool
  metrics : MetricsData
  deriving DecidableEq, Repr

/-- `MetricsCollector.requestStart`: `total++`, `active++` when enabled. -/
def MetricsCollector.requestStart (m : MetricsCollector) : MetricsCollector :=
  if !m.enabled then m
  else { m with metrics :=
    { m.metrics with reqTotal := m.metrics.reqTotal + 1, reqActive := m.metrics.reqActive + 1 } }

/-- `MetricsCollector.requestEnd`: `active = max(0, active - 1)`, then the
per-reason counter (`canceled` increments nothing). -/
def MetricsCollector.requestEnd (m : MetricsCollector) (reason : EndReason) : MetricsCollector :=
  if !m.enabled then m
  else
    let m1 := { m with metrics := { m.metrics with reqActive := m.metrics.reqActive - 1 } }
    match reason with
    | .canceled => m1
    | .error => { m1 with metrics := { m1.metrics with reqError := m1.metrics.reqError + 1 } }
    | .success => { m1 with metrics := { m1.metrics with reqSuccess := m1.metrics.reqSuccess + 1 } }
    | .timeout => { m1 with metrics := { m1.metrics with reqTimeout := m1.metrics.reqTimeout + 1 } }

/-- `MetricsCollector.retryHit`. -/
def MetricsCollector.retryHit (m : MetricsCollector) : MetricsCollector :=
  if !m.enabled then m
  else { m with metrics := { m.metrics with reqRetry := m.metrics.reqRetry + 1 } }

/-- `MetricsCollector.cacheMiss`. -/
def MetricsCollector.cacheMiss (m : MetricsCollector) : MetricsCollector :=
  if !m.enabled then m
  else { m with metrics := { m.metrics with cacheMiss := m.metrics.cacheMiss + 1 } }

/-- `MetricsCollector.setPending` (`clamp0` is the identity on `Nat`). -/
def MetricsCollector.setPending (m : MetricsCollector) (n : Nat) : MetricsCollector :=
  if !m.enabled then m
  else { m with metrics := { m.metrics with queuePending := n } }

/-- `MetricsCollector.setCacheSize`. -/
def MetricsCollector.setCacheSize (m : MetricsCollector) (n : Nat) : MetricsCollector :=
  if !m.enabled then m
  else { m with metrics := { m.metrics with cacheSize := n } }

/-! ## Orchestrator state machine (api-manager.ts `runOnce` / `runWithRetries`)

One logical request is modelled; concurrent cancellation, adapter behaviour
and queue admission are environment inputs.  Emitted lifecycle events are
collected in order. -/

/-- Lifecycle events emitted through the bus on the modelled paths. -/
inductive Ev
  | reqStart
  | reqEnd
  | respSuccess
  | respError
  | reqCanceled
  | retryAttempt
  | cacheSet
  | cacheMissEv
  deriving DecidableEq, Repr

/-- `PendingItem.abortedBy` values. -/
inductive AbortedBy
  | external
  | timeout
  | user
  deriving DecidableEq, Repr

/-- The `PendingItem` record; `ctrlAborted` is the state of the internal
`AbortController`'s signal (`item.controller.abort()` sets it). -/
structure PendingItem where
  abortedBy : Option AbortedBy
  canceledEmitted : Bool
  cancelReason : Option String
  startEmitted : Bool
  ctrlAborted : Bool
  deriving DecidableEq, Repr

/-- Orchestrator state visible to one logical request: the events emitted so
far, the metrics collector, this request's entry in the pending table
(`none` once unregistered), the number of other in-flight requests (for
`pending.size`), and the number of cache-store entries. -/
structure OrchState where
  events : List Ev
  mc : MetricsCollector
  item : Option PendingItem
  othersPending : Nat
  cacheCount : Nat

/-- Append one bus emission. -/
def emitEv (s : OrchState) (e : Ev) : OrchState :=
  { s with events := s.events ++ [e] }

/-- `emitCanceledOnce` (api-manager.ts lines 431–442): guarded by the
`canceledEmitted` latch. -/
def emitCanceledOnce (s : OrchState) : OrchState :=
  match s.item with
  | none => s
  | some it =>
    if it.canceledEmitted then s
    else emitEv { s with item := some { it with canceledEmitted := true } } Ev.reqCanceled

/-- `markCanceled` (api-manager.ts lines 512–535): first-abort attribution
latch; optionally aborts the internal controller; emits `canceled` only when
`start` was already emitted. -/
def markCanceled (s : OrchState) (ab : AbortedBy) (reason : String)
    (abortController emitIfStarted : Bool) : OrchState :=
  match s.item with
  | none => s
  | some it =>
    if it.abortedBy.isSome then s
    else
      let it2 := { it with abortedBy := some ab, cancelReason := some reason }
      let it3 := { it2 with ctrlAborted := if abortController then true else it2.ctrlAborted }
      let s2 := { s with item := some it3 }
      if emitIfStarted && it3.startEmitted then emitCanceledOnce s2 else s2

/-- `APIManager.abort` (api-manager.ts lines 64–76): returns `false` when the
id is not pending; otherwise `markCanceled` with `abortController` and
`emitIfStarted`, then an immediate `canceled` emission when `start` has not
been emitted yet; returns `true`. -/
def abort (s : OrchState) (reason : String) : Bool × OrchState :=
  match s.item with
  | none => (false, s)
  | some _ =>
    let s1 := markCanceled s AbortedBy.user reason true true
    let s2 :=
      if (s1.item.map PendingItem.startEmitted).getD false then s1
      else emitCanceledOnce s1
    (true, s2)

/-- Iterated `abort` calls with the same id. -/
def abortIter (reason : String) : Nat → OrchState → OrchState
  | 0, s => s
  | n + 1, s => abortIter reason n (abort s reason).2

/-- `registerPending` (api-manager.ts lines 591–619): insert a fresh item,
`metrics.setPending(pending.size)`; when the caller-supplied signal is already
aborted, run the external-abort path (`markCanceled` with
`abortController: true`). -/
def registerPending (s : OrchState) (extAlreadyAborted : Bool) : OrchState :=
  let it : PendingItem := ⟨none, false, none, false, false⟩
  let s1 := { s with item := some it, mc := s.mc.setPending (s.othersPending + 1) }
  if extAlreadyAborted then markCanceled s1 AbortedBy.external "External abort" true true
  else s1

/-- `unregisterPending` (api-manager.ts lines 892–901). -/
def unregisterPending (s : OrchState) : OrchState :=
  match s.item with
  | none => s
  | some _ => { s with item := none, mc := s.mc.setPending s.othersPending }

/-- Environment of one attempt: whether the caller's signal was already
aborted at registration, whether a concurrent `abort(id)` call lands during
the attempt, and the states of the internal controller / external signal
observed in the `catch` block. -/
structure AttemptEnv where
  extAlreadyAborted : Bool
  concurrentAbort : Bool
  ctrlAborted : Bool
  extAborted : Bool
  deriving DecidableEq, Repr

/-- Outcome of one attempt, as decided by queue admission and
`sendAndProcess` (adapter call, response interceptors, 304 handling and
status validation summarised): the acquire may reject, the send may return a
response (`cached` records whether `shouldCacheResponse` accepted it with a
positive TTL), or the send may throw (`none` models a non-`ApiError`
exception). -/
inductive AttemptOutcome
  | acquireFail (thrown : Option ApiErr)
  | sendOk (cached : Bool)
  | sendErr (thrown : Option ApiErr)

/-- A concurrent `abort(id)` call delivered by the environment. -/
def condAbort (env : AttemptEnv) (s : OrchState) : OrchState :=
  if env.concurrentAbort then (abort s "User cancelled").2 else s

/-- Lines 641–646 of `runOnce`: latch `startEmitted`, emit `start`. -/
def emitStartStep (s : OrchState) : OrchState :=
  let s1 :=
    match s.item with
    | none => s
    | some it => { s with item := some { it with startEmitted := true } }
  emitEv s1 Ev.reqStart

/-- `cacheIfNeeded` on the accepting path: store the entry,
`metrics.setCacheSize`, emit `cache:set` (a fresh key is assumed for the
store size). -/
def cacheStep (cached : Bool) (s : OrchState) : OrchState :=
  if cached then
    emitEv { s with cacheCount := s.cacheCount + 1,
                    mc := s.mc.setCacheSize (s.cacheCount + 1) } Ev.cacheSet
  else s

/-- The `catch` block of `runOnce` (api-manager.ts lines 654–680): wrap
non-`ApiError` exceptions into `NETWORK_ERROR`, reclassify to `CANCELED` when
an abort was observed (unless the error is a `TIMEOUT`), compute `endReason`
for non-revalidation requests, emit `canceled` (once) or run the error
interceptors and emit `response:error`, and rethrow. -/
def runCatch (req : Req) (thrown : Option ApiErr) (env : AttemptEnv) (s : OrchState) :
    ApiErr × Option EndReason × OrchState :=
  let finalErr0 := thrown.getD ⟨"NETWORK_ERROR", none⟩
  let aborted := (s.item.map PendingItem.ctrlAborted).getD false || env.ctrlAborted || env.extAborted
  let finalErr :=
    if finalErr0.code ≠ "TIMEOUT" ∧ aborted = true then (⟨"CANCELED", none⟩ : ApiErr)
    else finalErr0
  let endReason : Option EndReason :=
    if req.isRevalidate then none
    else some (if finalErr.code = "CANCELED" then EndReason.canceled
               else if finalErr0.code = "TIMEOUT" then EndReason.timeout
               else EndReason.error)
  let s2 := if finalErr.code = "CANCELED" then emitCanceledOnce s else emitEv s Ev.respError
  (finalErr, endReason, s2)

/-- The `finally` block of `runOnce` (api-manager.ts lines 681–692): release
bookkeeping, `metrics.requestEnd` only for non-revalidation requests with an
`endReason`, unregister the pending item, and emit `request:end`
unconditionally. -/
def runFinally (req : Req) (endReason : Option EndReason) (s : OrchState) : OrchState :=
  let s1 :=
    if req.isRevalidate then s
    else
      match endReason with
      | some rn => { s with mc := s.mc.requestEnd rn }
      | none => s
  emitEv (unregisterPending s1) Ev.reqEnd

/-- `runOnce` (api-manager.ts lines 626–693): register, acquire, emit
`start`, send, emit `success` and cache — or catch, classify and rethrow —
always running the `finally` block. -/
def runOnce (req : Req) (att : AttemptOutcome) (env : AttemptEnv) (s0 : OrchState) :
    Except ApiErr Unit × OrchState :=
  let s1 := registerPending s0 env.extAlreadyAborted
  match att with
  | .acquireFail thrown =>
    let s2 := condAbort env s1
    let (e, endReason, s3) := runCatch req thrown env s2
    (Except.error e, runFinally req endReason s3)
  | .sendOk cached =>
    let s2 := condAbort env (emitStartStep s1)
    let s3 := cacheStep cached (emitEv s2 Ev.respSuccess)
    (Except.ok (), runFinally req none s3)
  | .sendErr thrown =>
    let s2 := condAbort env (emitStartStep s1)
    let (e, endReason, s3) := runCatch req thrown env s2
    (Except.error e, runFinally req endReason s3)

/-- `runWithRetries` (api-manager.ts lines 695–713): loop `runOnce`; on an
error that `shouldRetry` accepts, bump `retryCount`, `metrics.retryHit`,
emit `retry:attempt` and sleep, then try again with the next environment
outcome.  The attempt list supplies one outcome per executed attempt. -/
def runWithRetries (cfg : Config) :
    Req → List (AttemptOutcome × AttemptEnv) → OrchState → Except ApiErr Unit × OrchState
  | _, [], s => (Except.error ⟨"MODEL_OUT_OF_ATTEMPTS", none⟩, s)
  | req, (att, env) :: rest, s =>
    match runOnce req att env s with
    | (Except.ok r, s1) => (Except.ok r, s1)
    | (Except.error e, s1) =>
      if !shouldRetry cfg req e then (Except.error e, s1)
      else
        let req2 := { req with retryCount := req.retryCount + 1 }
        let s2 := emitEv { s1 with mc := s1.mc.retryHit } Ev.retryAttempt
        runWithRetries cfg req2 rest s2

/-- `APIManager.request` on the cache-miss path (api-manager.ts lines
172–185): `tryServeFromCache` misses (`metrics.cacheMiss` and the
`cache:miss` emission), `metrics.requestStart` for non-revalidation requests,
then `runWithRetries`. -/
def requestRun (cfg : Config) (req : Req) (attempts : List (AttemptOutcome × AttemptEnv))
    (s0 : OrchState) : Except ApiErr Unit × OrchState :=
  let s1 := emitEv { s0 with mc := s0.mc.cacheMiss } Ev.cacheMissEv
  let s2 := if !req.isRevalidate then { s1 with mc := s1.mc.requestStart } else s1
  runWithRetries cfg req attempts s2

/-! ## Bounded request queue (request-queue.ts `RequestQueue`)

The queue is modelled as a state machine.  A waiter is represented by the
`aborted` flag of its signal.  Environment steps: a waiter's abort listener
firing (`abortWaiter`, which removes the entry as `removeEntry` does) and a
signal aborting without its listener having run (`markWaiterAborted`, the
case `release` defends against with its skip loop). -/

/-- The mutable state of a `RequestQueue`. -/
structure QueueState where
  activeCount : Nat
  closed : Bool
  waitQueue : List Bool
  capacity : Nat
  deriving DecidableEq, Repr

/-- One operation on the queue.  `acquire` carries the aborted-state of the
caller's signal. -/
inductive QStep
  | acquire (sigAborted : Bool)
  | tryAcquire
  | release
  | close
  | clear
  | abortWaiter (i : Nat)
  | markWaiterAborted (i : Nat)
  deriving DecidableEq, Repr

/-- The shift-and-skip loop of `release` (request-queue.ts lines 156–168):
dequeue waiters, dropping aborted ones, and grant at most one permit to the
first live waiter.  Returns whether a permit was granted and the remaining
queue. -/
def grantLoop : List Bool → Bool × List Bool
  | [] => (false, [])
  | aborted :: rest => if aborted then grantLoop rest else (true, rest)

/-- One step of the queue (request-queue.ts `acquire` / `tryAcquire` /
`release` / `close` / `clear` plus the two environment steps).  Rejections
(closed queue, pre-aborted signal, `release` with no active permit — which
throws) leave the state unchanged. -/
def qapply (s : QueueState) : QStep → QueueState
  | .acquire sa =>
    if s.closed then s
    else if sa then s
    else if s.activeCount < s.capacity then { s with activeCount := s.activeCount + 1 }
    else { s with waitQueue := s.waitQueue ++ [sa] }
  | .tryAcquire =>
    if s.closed then s
    else if s.activeCount < s.capacity then { s with activeCount := s.activeCount + 1 }
    else s
  | .release =>
    if s.activeCount = 0 then s
    else
      { s with activeCount := s.activeCount - 1 + (if (grantLoop s.waitQueue).1 then 1 else 0),
               waitQueue := (grantLoop s.waitQueue).2 }
  | .close => if s.closed then s else { s with closed := true, waitQueue := [] }
  | .clear => { s with waitQueue := [] }
  | .abortWaiter i => { s with waitQueue := s.waitQueue.eraseIdx i }
  | .markWaiterAborted i => { s with waitQueue := s.waitQueue.set i true }

/-- A freshly constructed queue of capacity `n`. -/
def qinit (n : Nat) : QueueState := ⟨0, false, [], n⟩

/-- Run a sequence of queue operations from the initial state. -/
def qrun (n : Nat) (steps : List QStep) : QueueState := steps.foldl qapply (qinit n)

/-! ## Default cache strategy (default-cache-strategy.ts) -/

/-- HTTP methods (types.ts `HttpMethod`). -/
inductive HttpMethod
  | DELETE
  | GET
  | HEAD
  | OPTIONS
  | PATCH
  | POST
  | PUT
  deriving DecidableEq, Repr

/-- Parsed `Cache-Control` directives (`parseCacheControl` output). -/
structure CC where
  maxAge : Option Nat
  sMaxage : Option Nat
  swr : Option Nat
  noCache : Bool
  noStore : Bool
  isPublic : Bool
  isPrivate : Bool
  deriving DecidableEq, Repr

/-- The empty parse result `{}`. -/
def ccDefault : CC := ⟨none, none, none, false, false, false, false⟩

/-- JS `\s` on the characters that occur in header values. -/
def isJsSpace (c : Char) : Bool :=
  c = ' ' || c = '\t' || c = '\n' || c = '\r' || c = '\x0c' || c = '\x0b'

/-- `parseInt(digits, 10)` on a non-empty digit run. -/
def digitsToNat (ds : List Char) : Nat :=
  ds.foldl (fun acc c => acc * 10 + (c.toNat - '0'.toNat)) 0

/-- The regex `/=\s*(\d+)/` of `parseSecondsKV`: scan for the first `=`
followed by optional whitespace and at least one digit; capture the digit
run. -/
def findEqNum : List Char → Option Nat
  | [] => none
  | c :: rest =>
    if c = '=' then
      if ((rest.dropWhile isJsSpace).takeWhile Char.isDigit).isEmpty then findEqNum rest
      else some (digitsToNat ((rest.dropWhile isJsSpace).takeWhile Char.isDigit))
    else findEqNum rest

/-- `parseSecondsKV` (default-cache-strategy.ts lines 220–226). -/
def parseSecondsKV (p : String) : Option Nat := findEqNum p.data

/-- One directive of `parseCacheControl` (the `for` loop body, an
else-if chain on the trimmed lowercase part). -/
def ccStep (out : CC) (p : String) : CC :=
  if p = "no-store" then { out with noStore := true }
  else if p = "no-cache" then { out with noCache := true }
  else if p = "public" then { out with isPublic := true }
  else if p = "private" then { out with isPrivate := true }
  else if p.startsWith "max-age" then { out with maxAge := parseSecondsKV p }
  else if p.startsWith "s-maxage" then { out with sMaxage := parseSecondsKV p }
  else if p.startsWith "stale-while-revalidate" then { out with swr := parseSecondsKV p }
  else out

/-- `parseCacheControl` (default-cache-strategy.ts lines 173–210): split on
commas, trim, lowercase, drop empty parts, fold the directive parser. -/
def parseCacheControl : Option String → CC
  | none => ccDefault
  | some raw =>
    (((raw.splitOn ",").map (fun s => s.trim.toLower)).filter (fun s => s ≠ "")).foldl
      ccStep ccDefault

/-- Headers as an association list in insertion order (a JS plain object). -/
def setHeader (m : List (String × String)) (k v : String) : List (String × String) :=
  if m.any (fun p => p.1 = k) then m.map (fun p => if p.1 = k then (k, v) else p)
  else m ++ [(k, v)]

/-- `lowercaseHeaders` (default-cache-strategy.ts lines 140–149):
`out[k.toLowerCase()] = v` over the entries in order. -/
def lowercaseHeaders (hs : List (String × String)) : List (String × String) :=
  hs.foldl (fun acc kv => setHeader acc kv.1.toLower kv.2) []

/-- Property lookup on a headers object. -/
def headerLookup (hs : List (String × String)) (k : String) : Option String :=
  (hs.find? (fun p => p.1 = k)).map (fun p => p.2)

/-- JS truthiness of `headers[k]` (`undefined` and `''` are falsy). -/
def headerTruthy (hs : List (String × String)) (k : String) : Bool :=
  match headerLookup hs k with
  | some v => v ≠ ""
  | none => false

/-- The request fields `DefaultCacheStrategy.shouldCache` reads. -/
structure CacheReq where
  method : HttpMethod
  headers : List (String × String)
  deriving DecidableEq, Repr

/-- The response fields `DefaultCacheStrategy.shouldCache` reads. -/
structure CacheRes where
  status : Nat
  headers : List (String × String)
  deriving DecidableEq, Repr

/-- `maxAge`/`sMaxage` present or `public` set (the `explicitlyCacheable`
local of `shouldCache`). -/
def explicitlyCacheable (resCC : CC) : Bool :=
  resCC.maxAge.isSome || resCC.sMaxage.isSome || resCC.isPublic

/-- `DefaultCacheStrategy.shouldCache` (default-cache-strategy.ts lines
73–103), with its early returns. -/
def shouldCache (req : CacheReq) (res : CacheRes) : Bool :=
  if req.method ≠ HttpMethod.GET then false
  else if res.status < 200 || res.status ≥ 300 then false
  else
    if (parseCacheControl (headerLookup (lowercaseHeaders req.headers) "cache-control")).noStore
        || (parseCacheControl (headerLookup (lowercaseHeaders req.headers) "cache-control")).noCache
      then false
    else if (parseCacheControl (headerLookup (lowercaseHeaders res.headers) "cache-control")).noStore
      then false
    else if headerTruthy (lowercaseHeaders req.headers) "authorization"
        && !explicitlyCacheable
          (parseCacheControl (headerLookup (lowercaseHeaders res.headers) "cache-control"))
      then false
    else
      decide ((parseCacheControl (headerLookup (lowercaseHeaders res.headers) "cache-control")).maxAge
        ≠ some 0)

/-! ## Typed event bus (typed-event-bus.ts)

One `emit` with empty global and pattern middleware chains is modelled: the
dispatcher reaches `callHandlers` then `callPatternHandlers` directly.
Handlers are represented by an id and whether they throw. -/

/-- An exact or any handler. -/
structure HEntry where
  id : String
  throws : Bool
  deriving DecidableEq, Repr

/-- A parsed pattern (`parsePattern`): `*` or a `p:*` with prefix `p`. -/
inductive PKind
  | star
  | pre (p : String)
  deriving DecidableEq, Repr

/-- A pattern subscription entry. -/
structure PEntry where
  id : String
  throws : Bool
  kind : PKind
  priority : Int
  deriving DecidableEq, Repr

/-- `matchPattern` (typed-event-bus.ts lines 249–259): `*` matches all;
`p:*` matches `p` itself or anything starting with `p:`. -/
def matchPattern (e : PEntry) (event : String) : Bool :=
  match e.kind with
  | .star => true
  | .pre p => event = p || event.startsWith (p ++ ":")

/-- `callHandlers` (typed-event-bus.ts lines 161–184) over a handler list:
every handler is invoked inside `try`/`catch`; a thrown error is queued on a
microtask and the loop continues.  Returns (invoked ids, microtask errors). -/
def runHandlerList (hs : List HEntry) : List String × List String :=
  hs.foldl
    (fun acc h => (acc.1 ++ [h.id], if h.throws then acc.2 ++ [h.id] else acc.2))
    ([], [])

/-- The handler loop of `callPatternHandlers` (typed-event-bus.ts lines
206–214): `entry.handler(...)` is *not* wrapped; a throw escapes the loop.
Returns (invoked ids, the escaping error if any). -/
def runPatternLoop : List PEntry → List String × Option String
  | [] => ([], none)
  | e :: rest =>
    if e.throws then ([e.id], some e.id)
    else ((e.id :: (runPatternLoop rest).1), (runPatternLoop rest).2)

/-- The observable trace of one `emit`: handler invocations in order, and
errors deferred to future microtasks (handler catches, plus the emission's
own rejection handler `queueMicrotask(() => { throw err })`). -/
structure EmitTrace where
  ran : List String
  micro : List String
  deriving DecidableEq, Repr

/-- One `emit(event, payload)` with no middleware installed: exact handlers,
then any-handlers (both isolated), then matched pattern handlers (not
isolated: a throw rejects `runMiddlewares`, and `emit`'s `.catch` defers the
error to a microtask). -/
def emitModel (event : String) (exact anys : List HEntry) (pats : List PEntry) : EmitTrace :=
  { ran := (runHandlerList (exact ++ anys)).1 ++
      (runPatternLoop (pats.filter (fun p => matchPattern p event))).1
    micro := (runHandlerList (exact ++ anys)).2 ++
      (runPatternLoop (pats.filter (fun p => matchPattern p event))).2.toList }

/-! ## Interceptor pipeline (api-manager.ts `use` and `apply*Interceptors`) -/

/-- An interceptor as the ordering logic sees it: its id and optional
`priority` (the spec's "weight"). -/
structure Interceptor where
  id : String
  priority : Option Int
  deriving DecidableEq, Repr

/-- `interceptor.priority ?? 0`. -/
def prioVal (i : Interceptor) : Int := i.priority.getD 0

/-- Stable insertion into a priority-descending list (a later-registered
interceptor goes after all entries of greater-or-equal priority). -/
def insDesc (i : Interceptor) : List Interceptor → List Interceptor
  | [] => [i]
  | x :: xs => if prioVal x > prioVal i then x :: insDesc i xs else i :: x :: xs

/-- The stable sort `interceptors.sort((a, b) => (b.priority ?? 0) - (a.priority ?? 0))`. -/
def sortDesc (l : List Interceptor) : List Interceptor := l.foldr insDesc []

/-- `use` (api-manager.ts lines 187–201): push, then re-sort. -/
def usePush (l : List Interceptor) (i : Interceptor) : List Interceptor := sortDesc (l ++ [i])

/-- Register a sequence of interceptors through `use`. -/
def registerAll (regs : List Interceptor) : List Interceptor := regs.foldl usePush []

/-- `applyRequestInterceptors` iterates `this.interceptors` in order. -/
def requestOrder (l : List Interceptor) : List String := l.map (fun i => i.id)

/-- `applyResponseInterceptors` iterates `this.interceptors` in the same
order (api-manager.ts lines 245–250). -/
def responseOrder (l : List Interceptor) : List String := l.map (fun i => i.id)

/-- `applyErrorInterceptors` iterates `[...this.interceptors].reverse()`. -/
def errorOrder (l : List Interceptor) : List String := l.reverse.map (fun i => i.id)

/-! ## Auxiliary definitions used by the theorems -/

/-- The request-level counters of the metrics snapshot:
`(active, error, retry, success, timeout, total)`. -/
def reqCounters (m : MetricsCollector) : Nat × Nat × Nat × Nat × Nat × Nat :=
  (m.metrics.reqActive, m.metrics.reqError, m.metrics.reqRetry,
   m.metrics.reqSuccess, m.metrics.reqTimeout, m.metrics.reqTotal)

/-- The `canceledEmitted` latch (`true` when the request is already
unregistered: no further emission is possible). -/
def latchB (s : OrchState) : Bool := (s.item.map PendingItem.canceledEmitted).getD true

/-- Potential function for the at-most-once argument: emitted `canceled`
events plus one pending credit while the latch is unset. -/
def psi (s : OrchState) : Nat := s.events.count Ev.reqCanceled + (if latchB s then 0 else 1)

/-- An attempt environment with no concurrent cancellation. -/
def envQuiet : AttemptEnv := ⟨false, false, false, false⟩

/-- No per-request retry overrides. -/
def retryNone : RetryOptions := ⟨none, none⟩

/-- A plain user-visible request. -/
def reqPlain : Req := ⟨false, 0, retryNone⟩

/-- A background-revalidation request (`metadata.isRevalidate = true`). -/
def reqReval : Req := ⟨true, 0, retryNone⟩

/-- A disabled metrics collector. -/
def mcOff : MetricsCollector := ⟨false, emptyMetrics⟩

/-- Initial orchestrator state with nothing pending and no emissions. -/
def s0base : OrchState := ⟨[], mcOff, none, 0, 0⟩

/-- A freshly registered pending item. -/
def freshItem : PendingItem := ⟨none, false, none, false, false⟩

/-- A state whose request is in flight (registered, `start` not yet
emitted). -/
def sPending : OrchState := ⟨[], mcOff, some freshItem, 0, 0⟩

/-- An HTTP 503 error as classified by `sendAndProcess`. -/
def err503 : ApiErr := ⟨"HTTP_503", some 503⟩

/-- The default configuration's `maxRetries = 3`. -/
def cfg3 : Config := ⟨3⟩

/-! ### Helper lemmas: shapes of the event trace and of the metrics -/

lemma emitEv_def (s : OrchState) (e : Ev) : (emitEv s e).events = s.events ++ [e] := rfl

lemma emitCanceledOnce_events (s : OrchState) :
    ∃ t, (emitCanceledOnce s).events = s.events ++ t ∧
      t.count Ev.reqEnd = 0 ∧ t.count Ev.reqStart = 0 := by
  cases h : s.item with
  | none => exact ⟨[], by simp [emitCanceledOnce, h], by decide, by decide⟩
  | some it =>
    by_cases hc : it.canceledEmitted
    · exact ⟨[], by simp [emitCanceledOnce, h, hc], by decide, by decide⟩
    · exact ⟨[Ev.reqCanceled], by simp [emitCanceledOnce, h, hc, emitEv], by decide, by decide⟩

lemma markCanceled_events (s : OrchState) (ab : AbortedBy) (r : String) (ac es : Bool) :
    ∃ t, (markCanceled s ab r ac es).events = s.events ++ t ∧
      t.count Ev.reqEnd = 0 ∧ t.count Ev.reqStart = 0 := by
  cases h : s.item with
  | none => exact ⟨[], by simp [markCanceled, h], by decide, by decide⟩
  | some it =>
    simp only [markCanceled, h]
    split
    · exact ⟨[], by simp, by decide, by decide⟩
    · split
      · exact emitCanceledOnce_events _
      · exact ⟨[], by simp, by decide, by decide⟩

lemma abort_events (s : OrchState) (r : String) :
    ∃ t, (abort s r).2.events = s.events ++ t ∧
      t.count Ev.reqEnd = 0 ∧ t.count Ev.reqStart = 0 := by
  cases h : s.item with
  | none => exact ⟨[], by simp [abort, h], by decide, by decide⟩
  | some it =>
    obtain ⟨t1, h1, e1, f1⟩ := markCanceled_events s AbortedBy.user r true true
    by_cases hb : ((markCanceled s AbortedBy.user r true true).item.map
        PendingItem.startEmitted).getD false
    · exact ⟨t1, by simp [abort, h, hb, h1], e1, f1⟩
    · obtain ⟨t2, h2, e2, f2⟩ := emitCanceledOnce_events (markCanceled s AbortedBy.user r true true)
      refine ⟨t1 ++ t2, ?_, ?_, ?_⟩
      · simp [abort, h, hb, h2, h1]
      · simp [List.count_append, e1, e2]
      · simp [List.count_append, f1, f2]

lemma condAbort_events (env : AttemptEnv) (s : OrchState) :
    ∃ t, (condAbort env s).events = s.events ++ t ∧
      t.count Ev.reqEnd = 0 ∧ t.count Ev.reqStart = 0 := by
  by_cases hc : env.concurrentAbort
  · obtain ⟨t, ht, he, hs⟩ := abort_events s "User cancelled"
    exact ⟨t, by simpa [condAbort, hc] using ht, he, hs⟩
  · exact ⟨[], by simp [condAbort, hc], by decide, by decide⟩

lemma registerPending_events (s : OrchState) (b : Bool) :
    ∃ t, (registerPending s b).events = s.events ++ t ∧
      t.count Ev.reqEnd = 0 ∧ t.count Ev.reqStart = 0 := by
  by_cases hb : b
  · obtain ⟨t, ht, he, hs⟩ := markCanceled_events
      { s with item := some ⟨none, false, none, false, false⟩,
               mc := s.mc.setPending (s.othersPending + 1) } AbortedBy.external "External abort" true true
    exact ⟨t, by simpa [registerPending, hb] using ht, he, hs⟩
  · exact ⟨[], by simp [registerPending, hb], by decide, by decide⟩

lemma emitStartStep_events (s : OrchState) :
    ∃ t, (emitStartStep s).events = s.events ++ t ∧
      t.count Ev.reqEnd = 0 ∧ t.count Ev.reqStart = 1 := by
  cases h : s.item with
  | none => exact ⟨[Ev.reqStart], by simp [emitStartStep, h, emitEv], by decide, by decide⟩
  | some it => exact ⟨[Ev.reqStart], by simp [emitStartStep, h, emitEv], by decide, by decide⟩

lemma cacheStep_events (c : Bool) (s : OrchState) :
    ∃ t, (cacheStep c s).events = s.events ++ t ∧
      t.count Ev.reqEnd = 0 ∧ t.count Ev.reqStart = 0 := by
  by_cases hc : c
  · exact ⟨[Ev.cacheSet], by simp [cacheStep, hc, emitEv], by decide, by decide⟩
  · exact ⟨[], by simp [cacheStep, hc], by decide, by decide⟩

lemma runCatch_events (req : Req) (th : Option ApiErr) (env : AttemptEnv) (s : OrchState) :
    ∃ t, (runCatch req th env s).2.2.events = s.events ++ t ∧
      t.count Ev.reqEnd = 0 ∧ t.count Ev.reqStart = 0 := by
  simp only [runCatch]
  split <;> (try split) <;>
    first
      | exact emitCanceledOnce_events _
      | exact ⟨[Ev.respError], rfl, by decide, by decide⟩

lemma runOnce_acquireFail_snd (req : Req) (th : Option ApiErr) (env : AttemptEnv) (s : OrchState) :
    (runOnce req (AttemptOutcome.acquireFail th) env s).2 =
      runFinally req
        (runCatch req th env (condAbort env (registerPending s env.extAlreadyAborted))).2.1
        (runCatch req th env (condAbort env (registerPending s env.extAlreadyAborted))).2.2 := rfl

lemma runOnce_sendOk_snd (req : Req) (c : Bool) (env : AttemptEnv) (s : OrchState) :
    (runOnce req (AttemptOutcome.sendOk c) env s).2 =
      runFinally req none (cacheStep c
        (emitEv (condAbort env (emitStartStep (registerPending s env.extAlreadyAborted)))
          Ev.respSuccess)) := rfl

lemma runOnce_sendErr_snd (req : Req) (th : Option ApiErr) (env : AttemptEnv) (s : OrchState) :
    (runOnce req (AttemptOutcome.sendErr th) env s).2 =
      runFinally req
        (runCatch req th env
          (condAbort env (emitStartStep (registerPending s env.extAlreadyAborted)))).2.1
        (runCatch req th env
          (condAbort env (emitStartStep (registerPending s env.extAlreadyAborted)))).2.2 := rfl

lemma runFinally_events (req : Req) (er : Option EndReason) (s : OrchState) :
    (runFinally req er s).events = s.events ++ [Ev.reqEnd] := by
  unfold runFinally
  split_ifs with h
  · cases hi : s.item <;> simp [unregisterPending, hi, emitEv]
  · cases er <;> cases hi : s.item <;> simp [unregisterPending, hi, emitEv]

lemma runOnce_events_shape (req : Req) (att : AttemptOutcome) (env : AttemptEnv) (s : OrchState) :
    ∃ pre, (runOnce req att env s).2.events = (s.events ++ pre) ++ [Ev.reqEnd] ∧
      pre.count Ev.reqEnd = 0 ∧ pre.count Ev.reqStart ≤ 1 := by
  cases att with
  | acquireFail th =>
    obtain ⟨t1, h1, e1, f1⟩ := registerPending_events s env.extAlreadyAborted
    obtain ⟨t2, h2, e2, f2⟩ := condAbort_events env (registerPending s env.extAlreadyAborted)
    obtain ⟨t3, h3, e3, f3⟩ := runCatch_events req th env
      (condAbort env (registerPending s env.extAlreadyAborted))
    refine ⟨t1 ++ t2 ++ t3, ?_, ?_, ?_⟩
    · rw [runOnce_acquireFail_snd, runFinally_events, h3, h2, h1]; simp
    · simp [List.count_append, e1, e2, e3]
    · simp [List.count_append, f1, f2, f3]
  | sendOk c =>
    obtain ⟨t1, h1, e1, f1⟩ := registerPending_events s env.extAlreadyAborted
    obtain ⟨t2, h2, e2, f2⟩ := emitStartStep_events (registerPending s env.extAlreadyAborted)
    obtain ⟨t3, h3, e3, f3⟩ := condAbort_events env
      (emitStartStep (registerPending s env.extAlreadyAborted))
    obtain ⟨t4, h4, e4, f4⟩ := cacheStep_events c
      (emitEv (condAbort env (emitStartStep (registerPending s env.extAlreadyAborted))) Ev.respSuccess)
    refine ⟨t1 ++ t2 ++ t3 ++ [Ev.respSuccess] ++ t4, ?_, ?_, ?_⟩
    · rw [runOnce_sendOk_snd, runFinally_events, h4, emitEv_def, h3, h2, h1]; simp
    · simp [List.count_append, e1, e2, e3, e4]
    · simp [List.count_append, f1, f2, f3, f4]
  | sendErr th =>
    obtain ⟨t1, h1, e1, f1⟩ := registerPending_events s env.extAlreadyAborted
    obtain ⟨t2, h2, e2, f2⟩ := emitStartStep_events (registerPending s env.extAlreadyAborted)
    obtain ⟨t3, h3, e3, f3⟩ := condAbort_events env
      (emitStartStep (registerPending s env.extAlreadyAborted))
    obtain ⟨t4, h4, e4, f4⟩ := runCatch_events req th env
      (condAbort env (emitStartStep (registerPending s env.extAlreadyAborted)))
    refine ⟨t1 ++ t2 ++ t3 ++ t4, ?_, ?_, ?_⟩
    · rw [runOnce_sendErr_snd, runFinally_events, h4, h3, h2, h1]; simp
    · simp [List.count_append, e1, e2, e3, e4]
    · simp [List.count_append, f1, f2, f3, f4]

/-! ## Theorems: C3 and C4 -/

/-- C3: for every request and error with a non-degenerate status (the JS code
tests `err.status` for truthiness, so `status: 0` — which no constructor in the
repository produces — is the only point where the wording could differ), the
retry decision of `APIManager.shouldRetry` coincides with the specification's
description: `CANCELED` is never retried, a custom `retryOptions.shouldRetry`
wins, and otherwise the request is retried exactly when `retryCount` is below
`maxRetries` and the error is `TIMEOUT`, a status-less `NETWORK_ERROR`, or
carries a status in {408, 429, 500, 502, 503, 504}. -/
theorem c3_retry_decision (cfg : Config) (req : Req) (err : ApiErr)
    (hs : err.status ≠ some 0) :
    shouldRetry cfg req err = specShouldRetry cfg req err := by
  unfold shouldRetry specShouldRetry statusTruthy
  by_cases hc : err.code = "CANCELED"
  · simp [hc]
  · simp only [hc, if_false]
    cases hf : req.retryOptions.customShouldRetry with
    | some f => rfl
    | none =>
      cases hst : err.status with
      | none =>
        by_cases hm : req.retryCount ≥ req.retryOptions.maxRetries.getD cfg.maxRetries
        · simp [hm, Nat.not_lt_of_ge hm]
        · by_cases ht : err.code = "TIMEOUT" <;>
            simp [hm, ht, Nat.lt_of_not_ge hm]
      | some s =>
        have hs0 : s ≠ 0 := by
          intro h; exact hs (by simp [hst, h])
        by_cases hm : req.retryCount ≥ req.retryOptions.maxRetries.getD cfg.maxRetries
        · simp [hm, Nat.not_lt_of_ge hm]
        · by_cases ht : err.code = "TIMEOUT"
          · simp [hm, ht, Nat.lt_of_not_ge hm]
          · by_cases hin : s ∈ RETRY_STATUS_CODES <;>
              simp [hm, ht, hs0, hin, Nat.lt_of_not_ge hm]

/-- Witness for C3 at a concrete point: a `TIMEOUT` error with no status, a
fresh request, default-style config — the decision is `true` on both sides. -/
theorem c3_retry_decision_witness :
    (ApiErr.mk "TIMEOUT" none).status ≠ some 0 ∧
      shouldRetry ⟨3⟩ ⟨false, 0, ⟨none, none⟩⟩ ⟨"TIMEOUT", none⟩ =
        specShouldRetry ⟨3⟩ ⟨false, 0, ⟨none, none⟩⟩ ⟨"TIMEOUT", none⟩ :=
  ⟨by decide, c3_retry_decision ⟨3⟩ ⟨false, 0, ⟨none, none⟩⟩ ⟨"TIMEOUT", none⟩ (by decide)⟩

/-- C4 counterexample: the claim's formula `delay = max(0, base·2^(n-1) +
base·jitter·u)` with `u ∈ [−1, 1]` and `base` the configured delay is false on
the code: at `retryDelay = 1000`, `jitter = 1`, attempt `n = 2`, random draw
`r = 9/10`, the code computes `3600`, while every `u ∈ [−1, 1]` yields at most
`3000` — the code multiplies the jitter term by `base·2^(n-1)`, not by `base`. -/
theorem c4_backoff_formula_counterexample :
    getRetryDelayMs 1000 1 2 (9/10) = 3600 ∧
      ¬ ∃ u : ℚ, -1 ≤ u ∧ u ≤ 1 ∧
        getRetryDelayMs 1000 1 2 (9/10) = max 0 (1000 * 2 ^ (2 - 1) + 1000 * 1 * u) := by
  constructor
  · norm_num [getRetryDelayMs]
  · rintro ⟨u, hu1, hu2, h⟩
    rw [show getRetryDelayMs 1000 1 2 (9/10) = 3600 by norm_num [getRetryDelayMs]] at h
    have h2 : (1000 : ℚ) * 2 ^ (2 - 1) + 1000 * 1 * u ≤ 3000 := by
      norm_num; linarith
    rcases max_choice (0 : ℚ) (1000 * 2 ^ (2 - 1) + 1000 * 1 * u) with hm | hm <;>
      rw [hm] at h <;> linarith

/-- C4 amended: for every attempt `n ≥ 1`, configured delay `base ≥ 0`, jitter
`∈ [0, 1]` and random draw `r ∈ [0, 1]`, the computed delay equals
`max(0, B + B·jitter·(2r−1))` with `B = base·2^(n−1)` (the jitter term scales
with the exponentiated base), and therefore satisfies
`B·(1−jitter) ≤ delay ≤ B·(1+jitter)`. -/
theorem c4_backoff_bounds (base jitter : ℚ) (n : Nat) (r : ℚ)
    (hb : 0 ≤ base) (hj0 : 0 ≤ jitter) (hj1 : jitter ≤ 1)
    (hr0 : 0 ≤ r) (hr1 : r ≤ 1) (hn : 1 ≤ n) :
    getRetryDelayMs base jitter n r =
        max 0 (base * 2 ^ (n - 1) + base * 2 ^ (n - 1) * jitter * (r * 2 - 1)) ∧
      base * 2 ^ (n - 1) * (1 - jitter) ≤ getRetryDelayMs base jitter n r ∧
      getRetryDelayMs base jitter n r ≤ base * 2 ^ (n - 1) * (1 + jitter) := by
  have hB : (0 : ℚ) ≤ base * 2 ^ (n - 1) :=
    mul_nonneg hb (by positivity)
  have hu1 : (-1 : ℚ) ≤ r * 2 - 1 := by linarith
  have hu2 : r * 2 - 1 ≤ 1 := by linarith
  refine ⟨rfl, ?_, ?_⟩
  · have hlow : base * 2 ^ (n - 1) * (1 - jitter) ≤
        base * 2 ^ (n - 1) + base * 2 ^ (n - 1) * jitter * (r * 2 - 1) := by
      nlinarith [mul_nonneg hB hj0]
    calc base * 2 ^ (n - 1) * (1 - jitter)
        ≤ base * 2 ^ (n - 1) + base * 2 ^ (n - 1) * jitter * (r * 2 - 1) := hlow
      _ ≤ getRetryDelayMs base jitter n r := le_max_right _ _
  · have hup : base * 2 ^ (n - 1) + base * 2 ^ (n - 1) * jitter * (r * 2 - 1) ≤
        base * 2 ^ (n - 1) * (1 + jitter) := by
      nlinarith [mul_nonneg hB hj0]
    have h0 : (0 : ℚ) ≤ base * 2 ^ (n - 1) * (1 + jitter) := by nlinarith
    exact max_le h0 hup

/-- Witness for C4 amended at `base = 1000`, `jitter = 3/10`, `n = 1`,
`r = 1/2`. -/
theorem c4_backoff_bounds_witness :
    (0 : ℚ) ≤ 1000 ∧
      (getRetryDelayMs 1000 (3/10) 1 (1/2) =
          max 0 (1000 * 2 ^ (1 - 1) + 1000 * 2 ^ (1 - 1) * (3/10) * ((1/2) * 2 - 1)) ∧
        1000 * 2 ^ (1 - 1) * (1 - 3/10) ≤ getRetryDelayMs 1000 (3/10) 1 (1/2) ∧
        getRetryDelayMs 1000 (3/10) 1 (1/2) ≤ 1000 * 2 ^ (1 - 1) * (1 + 3/10)) :=
  ⟨by norm_num,
    c4_backoff_bounds 1000 (3/10) 1 (1/2) (by norm_num) (by norm_num) (by norm_num)
      (by norm_num) (by norm_num) (by norm_num)⟩

/-! ### Helper lemmas: metrics preservation -/

lemma reqCounters_setPending (m : MetricsCollector) (n : Nat) :
    reqCounters (m.setPending n) = reqCounters m := by
  unfold MetricsCollector.setPending reqCounters; split <;> rfl

lemma reqCounters_setCacheSize (m : MetricsCollector) (n : Nat) :
    reqCounters (m.setCacheSize n) = reqCounters m := by
  unfold MetricsCollector.setCacheSize reqCounters; split <;> rfl

lemma reqCounters_cacheMiss (m : MetricsCollector) :
    reqCounters m.cacheMiss = reqCounters m := by
  unfold MetricsCollector.cacheMiss reqCounters; split <;> rfl

lemma emitEv_mc (s : OrchState) (e : Ev) : (emitEv s e).mc = s.mc := rfl

lemma emitCanceledOnce_mc (s : OrchState) : (emitCanceledOnce s).mc = s.mc := by
  simp only [emitCanceledOnce, emitEv]
  repeat' split
  all_goals rfl

lemma markCanceled_mc (s : OrchState) (ab : AbortedBy) (r : String) (ac es : Bool) :
    (markCanceled s ab r ac es).mc = s.mc := by
  simp only [markCanceled]
  repeat' split
  all_goals first
    | rw [emitCanceledOnce_mc]
    | rfl

lemma abort_mc (s : OrchState) (r : String) : (abort s r).2.mc = s.mc := by
  simp only [abort]
  repeat' split
  all_goals first
    | rfl
    | rw [markCanceled_mc]
    | rw [emitCanceledOnce_mc, markCanceled_mc]

lemma condAbort_mc (env : AttemptEnv) (s : OrchState) : (condAbort env s).mc = s.mc := by
  simp only [condAbort]
  split
  · rw [abort_mc]
  · rfl

lemma emitStartStep_mc (s : OrchState) : (emitStartStep s).mc = s.mc := by
  simp only [emitStartStep, emitEv]
  repeat' split
  all_goals rfl

lemma registerPending_mc (s : OrchState) (b : Bool) :
    (registerPending s b).mc = s.mc.setPending (s.othersPending + 1) := by
  simp only [registerPending]
  split
  · rw [markCanceled_mc]
  · rfl

lemma cacheStep_counters (c : Bool) (s : OrchState) :
    reqCounters (cacheStep c s).mc = reqCounters s.mc := by
  simp only [cacheStep, emitEv]
  split
  · exact reqCounters_setCacheSize s.mc (s.cacheCount + 1)
  · rfl

lemma runCatch_mc (req : Req) (th : Option ApiErr) (env : AttemptEnv) (s : OrchState) :
    (runCatch req th env s).2.2.mc = s.mc := by
  simp only [runCatch]
  repeat' split
  all_goals first
    | rw [emitCanceledOnce_mc]
    | rfl

lemma runCatch_endReason_reval (req : Req) (th : Option ApiErr) (env : AttemptEnv)
    (s : OrchState) (h : req.isRevalidate = true) :
    (runCatch req th env s).2.1 = none := by
  simp [runCatch, h]

lemma unregisterPending_counters (s : OrchState) :
    reqCounters (unregisterPending s).mc = reqCounters s.mc := by
  simp only [unregisterPending]
  split
  · rfl
  · exact reqCounters_setPending s.mc s.othersPending

lemma runFinally_counters_none (req : Req) (s : OrchState) :
    reqCounters (runFinally req none s).mc = reqCounters s.mc := by
  simp only [runFinally]
  split <;> exact unregisterPending_counters s

lemma runFinally_counters_reval (req : Req) (er : Option EndReason) (s : OrchState)
    (h : req.isRevalidate = true) :
    reqCounters (runFinally req er s).mc = reqCounters s.mc := by
  simp only [runFinally, h, if_true]
  exact unregisterPending_counters s

lemma runOnce_counters_reval (req : Req) (att : AttemptOutcome) (env : AttemptEnv)
    (s : OrchState) (h : req.isRevalidate = true) :
    reqCounters ((runOnce req att env s).2.mc) = reqCounters s.mc := by
  cases att with
  | acquireFail th =>
    rw [runOnce_acquireFail_snd, runFinally_counters_reval _ _ _ h, runCatch_mc,
      condAbort_mc, registerPending_mc, reqCounters_setPending]
  | sendOk c =>
    rw [runOnce_sendOk_snd, runFinally_counters_none, cacheStep_counters, emitEv_mc,
      condAbort_mc, emitStartStep_mc, registerPending_mc, reqCounters_setPending]
  | sendErr th =>
    rw [runOnce_sendErr_snd, runFinally_counters_reval _ _ _ h, runCatch_mc,
      condAbort_mc, emitStartStep_mc, registerPending_mc, reqCounters_setPending]

lemma runOnce_counters_sendOk (req : Req) (c : Bool) (env : AttemptEnv) (s : OrchState) :
    reqCounters ((runOnce req (AttemptOutcome.sendOk c) env s).2.mc) = reqCounters s.mc := by
  rw [runOnce_sendOk_snd, runFinally_counters_none, cacheStep_counters, emitEv_mc,
    condAbort_mc, emitStartStep_mc, registerPending_mc, reqCounters_setPending]

lemma runWithRetries_sendOk (cfg : Config) (req : Req) (c : Bool) (env : AttemptEnv)
    (rest : List (AttemptOutcome × AttemptEnv)) (s : OrchState) :
    runWithRetries cfg req ((AttemptOutcome.sendOk c, env) :: rest) s =
      (Except.ok (), (runOnce req (AttemptOutcome.sendOk c) env s).2) := rfl

lemma cacheMiss_enabled (m : MetricsCollector) : m.cacheMiss.enabled = m.enabled := by
  unfold MetricsCollector.cacheMiss; split <;> rfl

/-! ### Helper lemmas: the cancel latch -/

lemma abort_psi_le (s : OrchState) (r : String) : psi (abort s r).2 ≤ psi s := by
  cases h : s.item with
  | none => simp [abort, h]
  | some it =>
    by_cases ha : it.abortedBy.isSome <;>
    by_cases hst : it.startEmitted <;>
    by_cases hc : it.canceledEmitted <;>
      simp [abort, markCanceled, emitCanceledOnce, psi, latchB, h, ha, hst, hc, emitEv,
        List.count_append]

lemma abortIter_psi_le (r : String) (n : Nat) : ∀ s, psi (abortIter r n s) ≤ psi s := by
  induction n with
  | zero => intro s; simp [abortIter]
  | succ k ih => intro s; exact le_trans (ih _) (abort_psi_le s r)

/-! ## Theorems: C1, C2, C5, C10 -/

/-- C1 counterexample: the claim that one logical request emits
`api:request:end` exactly once (and `start` at most once) fails on the code:
with the default configuration, a request whose first attempt fails with an
HTTP 503 and whose second attempt succeeds emits two `start` and two `end`
events — `runOnce` emits both events again on every retry attempt. -/
theorem c1_end_exactly_once_counterexample :
    ((requestRun cfg3 reqPlain
        [(AttemptOutcome.sendErr (some err503), envQuiet), (AttemptOutcome.sendOk false, envQuiet)]
        s0base).2.events.count Ev.reqEnd = 2) ∧
      ((requestRun cfg3 reqPlain
        [(AttemptOutcome.sendErr (some err503), envQuiet), (AttemptOutcome.sendOk false, envQuiet)]
        s0base).2.events.count Ev.reqStart = 2) := by decide

/-- C1 amended: the lifecycle ordering holds per attempt, not per logical
request: every `runOnce` invocation — whatever the environment does — emits
`api:request:end` exactly once and as its final event, and emits
`api:request:start` at most once; a retried request repeats one such pair per
attempt. -/
theorem c1_lifecycle_per_attempt (req : Req) (att : AttemptOutcome) (env : AttemptEnv)
    (mc : MetricsCollector) (it : Option PendingItem) (k c : Nat) :
    ((runOnce req att env ⟨[], mc, it, k, c⟩).2.events.count Ev.reqEnd = 1) ∧
      ((runOnce req att env ⟨[], mc, it, k, c⟩).2.events.count Ev.reqStart ≤ 1) ∧
      ((runOnce req att env ⟨[], mc, it, k, c⟩).2.events.getLast? = some Ev.reqEnd) := by
  obtain ⟨pre, hsh, he, hs⟩ := runOnce_events_shape req att env ⟨[], mc, it, k, c⟩
  have hend : ([Ev.reqEnd] : List Ev).count Ev.reqEnd = 1 := by decide
  have hstart : ([Ev.reqEnd] : List Ev).count Ev.reqStart = 0 := by decide
  refine ⟨?_, ?_, ?_⟩
  · rw [hsh]; simp [List.count_append, he, hend]
  · rw [hsh]; simp [List.count_append, hs, hstart]
  · rw [hsh]; exact List.getLast?_concat _

/-- C2 counterexample: the claim that no `api:request:end` is emitted for a
background revalidation request fails on the code: a revalidation request
(`isRevalidate = true`) that succeeds emits `start`, `success` and `end` —
the `finally` block of `runOnce` emits `end` unconditionally. -/
theorem c2_revalidation_no_end_counterexample :
    (runOnce reqReval (AttemptOutcome.sendOk false) envQuiet s0base).2.events =
        [Ev.reqStart, Ev.respSuccess, Ev.reqEnd] ∧
      (runOnce reqReval (AttemptOutcome.sendOk false) envQuiet s0base).2.events.count Ev.reqEnd
        = 1 := by decide

/-- C2 amended: a background revalidation request does emit
`api:request:end` (exactly once per attempt, like any other request); what is
suppressed for revalidation is the metrics `requestEnd` update — the
request-level counters and the active gauge are untouched by the whole
attempt. -/
theorem c2_revalidation_end_emitted (req : Req) (att : AttemptOutcome) (env : AttemptEnv)
    (s : OrchState) (h : req.isRevalidate = true) :
    (runOnce req att env s).2.events.count Ev.reqEnd = s.events.count Ev.reqEnd + 1 ∧
      reqCounters ((runOnce req att env s).2.mc) = reqCounters s.mc := by
  obtain ⟨pre, hsh, he, _⟩ := runOnce_events_shape req att env s
  have hend : ([Ev.reqEnd] : List Ev).count Ev.reqEnd = 1 := by decide
  refine ⟨?_, runOnce_counters_reval req att env s h⟩
  rw [hsh]; simp [List.count_append, he, hend]

/-- Witness for C2 amended at the concrete revalidation success. -/
theorem c2_revalidation_end_emitted_witness :
    reqReval.isRevalidate = true ∧
      ((runOnce reqReval (AttemptOutcome.sendErr (some err503)) envQuiet s0base).2.events.count
            Ev.reqEnd = s0base.events.count Ev.reqEnd + 1 ∧
        reqCounters ((runOnce reqReval (AttemptOutcome.sendErr (some err503)) envQuiet
            s0base).2.mc) = reqCounters s0base.mc) :=
  ⟨rfl, c2_revalidation_end_emitted reqReval (AttemptOutcome.sendErr (some err503)) envQuiet
    s0base rfl⟩

/-- C5 counterexample: the claim that repeated `cancel` calls on the same
in-flight id return `true` the first time and `false` thereafter fails on the
code: while the request remains in the pending table, every `abort` call
finds the item and returns `true` — here the second call also returns
`true`. -/
theorem c5_cancel_idempotence_counterexample :
    (abort sPending "User cancelled").1 = true ∧
      (abort (abort sPending "User cancelled").2 "User cancelled").1 = true := by decide

/-- C5 amended: `abort` returns `true` exactly when the id is still in the
pending table (so repeated cancels of a still-pending request all return
`true`, and `false` only once the request has been unregistered); the
`api:request:canceled` event is nevertheless emitted at most once across any
number of cancel calls, guarded by the `canceledEmitted` latch. -/
theorem c5_cancel_semantics :
    (∀ s r, (abort s r).1 = s.item.isSome) ∧
      (∀ r n s, (abortIter r n s).events.count Ev.reqCanceled ≤
        s.events.count Ev.reqCanceled + 1) := by
  constructor
  · intro s r; cases h : s.item <;> simp [abort, h]
  · intro r n s
    have h1 : (abortIter r n s).events.count Ev.reqCanceled ≤ psi (abortIter r n s) := by
      unfold psi; split <;> omega
    have h2 := abortIter_psi_le r n s
    have h3 : psi s ≤ s.events.count Ev.reqCanceled + 1 := by
      unfold psi; split <;> omega
    omega

/-- C10: a non-revalidation request that completes successfully never reaches
`MetricsCollector.requestEnd`: `endReason` stays `null` on the success path,
so after the whole run the `requests.success` counter is unchanged and the
`requests.active` gauge remains incremented (and `total` incremented) from
`requestStart` — the error/retry/timeout counters are untouched as well. -/
theorem c10_success_skips_requestEnd (cfg : Config) (req : Req) (env : AttemptEnv) (c : Bool)
    (s0 : OrchState) (h1 : req.isRevalidate = false) (h2 : s0.mc.enabled = true) :
    reqCounters ((requestRun cfg req [(AttemptOutcome.sendOk c, env)] s0).2.mc) =
      (s0.mc.metrics.reqActive + 1, s0.mc.metrics.reqError, s0.mc.metrics.reqRetry,
       s0.mc.metrics.reqSuccess, s0.mc.metrics.reqTimeout, s0.mc.metrics.reqTotal + 1) := by
  simp only [requestRun, h1, Bool.not_false, if_true]
  rw [runWithRetries_sendOk]
  rw [show ((Except.ok () : Except ApiErr Unit),
      (runOnce req (AttemptOutcome.sendOk c) env
        { emitEv { s0 with mc := s0.mc.cacheMiss } Ev.cacheMissEv with
          mc := (emitEv { s0 with mc := s0.mc.cacheMiss } Ev.cacheMissEv).mc.requestStart }).2).2 =
    (runOnce req (AttemptOutcome.sendOk c) env
        { emitEv { s0 with mc := s0.mc.cacheMiss } Ev.cacheMissEv with
          mc := (emitEv { s0 with mc := s0.mc.cacheMiss } Ev.cacheMissEv).mc.requestStart }).2
    from rfl]
  rw [runOnce_counters_sendOk]
  simp [emitEv, MetricsCollector.cacheMiss, MetricsCollector.requestStart, reqCounters, h2]

/-- Witness for C10 at a concrete enabled collector and plain request. -/
theorem c10_success_skips_requestEnd_witness :
    reqPlain.isRevalidate = false ∧
      (⟨[], ⟨true, emptyMetrics⟩, none, 0, 0⟩ : OrchState).mc.enabled = true ∧
      reqCounters ((requestRun cfg3 reqPlain [(AttemptOutcome.sendOk false, envQuiet)]
          ⟨[], ⟨true, emptyMetrics⟩, none, 0, 0⟩).2.mc) =
        ((⟨[], ⟨true, emptyMetrics⟩, none, 0, 0⟩ : OrchState).mc.metrics.reqActive + 1,
         (⟨[], ⟨true, emptyMetrics⟩, none, 0, 0⟩ : OrchState).mc.metrics.reqError,
         (⟨[], ⟨true, emptyMetrics⟩, none, 0, 0⟩ : OrchState).mc.metrics.reqRetry,
         (⟨[], ⟨true, emptyMetrics⟩, none, 0, 0⟩ : OrchState).mc.metrics.reqSuccess,
         (⟨[], ⟨true, emptyMetrics⟩, none, 0, 0⟩ : OrchState).mc.metrics.reqTimeout,
         (⟨[], ⟨true, emptyMetrics⟩, none, 0, 0⟩ : OrchState).mc.metrics.reqTotal + 1) :=
  ⟨rfl, rfl, c10_success_skips_requestEnd cfg3 reqPlain envQuiet false
    ⟨[], ⟨true, emptyMetrics⟩, none, 0, 0⟩ rfl rfl⟩

/-! ## Theorems: C6 (cache policy) -/

/-- C6: `DefaultCacheStrategy.shouldCache` returns `true` only if the method
is GET, the status is 2xx, the request `Cache-Control` contains neither
`no-store` nor `no-cache`, the response `Cache-Control` has no `no-store`,
either the request carries no (truthy) `Authorization` header or the response
is explicitly cacheable (`max-age`, `s-maxage`, or `public`), and the
response `max-age` is not `0`. -/
theorem c6_shouldCache_only_if (req : CacheReq) (res : CacheRes)
    (h : shouldCache req res = true) :
    req.method = HttpMethod.GET ∧
      (200 ≤ res.status ∧ res.status < 300) ∧
      (parseCacheControl (headerLookup (lowercaseHeaders req.headers) "cache-control")).noStore
        = false ∧
      (parseCacheControl (headerLookup (lowercaseHeaders req.headers) "cache-control")).noCache
        = false ∧
      (parseCacheControl (headerLookup (lowercaseHeaders res.headers) "cache-control")).noStore
        = false ∧
      (headerTruthy (lowercaseHeaders req.headers) "authorization" = false ∨
        explicitlyCacheable
          (parseCacheControl (headerLookup (lowercaseHeaders res.headers) "cache-control"))
          = true) ∧
      (parseCacheControl (headerLookup (lowercaseHeaders res.headers) "cache-control")).maxAge
        ≠ some 0 := by
  unfold shouldCache at h
  split_ifs at h with h1 h2 h3 h4 h5 <;>
    simp only [Bool.false_eq_true, decide_eq_true_eq] at h
  simp only [Bool.or_eq_true, decide_eq_true_eq, not_or] at h2 h3
  refine ⟨not_not.mp h1, ⟨by omega, by omega⟩, ?_, ?_, ?_, ?_, h⟩
  · exact Bool.not_eq_true _ |>.mp h3.1
  · exact Bool.not_eq_true _ |>.mp h3.2
  · exact Bool.not_eq_true _ |>.mp h4
  · rcases Bool.dichotomy (headerTruthy (lowercaseHeaders req.headers) "authorization")
      with ha | ha
    · exact Or.inl ha
    · rcases Bool.dichotomy (explicitlyCacheable
          (parseCacheControl (headerLookup (lowercaseHeaders res.headers) "cache-control")))
        with hb | hb
      · exact absurd (by simp [ha, hb]) h5
      · exact Or.inr hb

/-- Witness for C6: a plain GET with no headers against a bare 200 response
is cacheable, and all the listed conditions hold there. -/
theorem c6_shouldCache_only_if_witness :
    shouldCache ⟨HttpMethod.GET, []⟩ ⟨200, []⟩ = true ∧
      ((⟨HttpMethod.GET, []⟩ : CacheReq).method = HttpMethod.GET ∧
        (200 ≤ (⟨200, []⟩ : CacheRes).status ∧ (⟨200, []⟩ : CacheRes).status < 300) ∧
        (parseCacheControl (headerLookup (lowercaseHeaders ([] : List (String × String)))
          "cache-control")).noStore = false ∧
        (parseCacheControl (headerLookup (lowercaseHeaders ([] : List (String × String)))
          "cache-control")).noCache = false ∧
        (parseCacheControl (headerLookup (lowercaseHeaders ([] : List (String × String)))
          "cache-control")).noStore = false ∧
        (headerTruthy (lowercaseHeaders ([] : List (String × String))) "authorization" = false ∨
          explicitlyCacheable (parseCacheControl (headerLookup
            (lowercaseHeaders ([] : List (String × String))) "cache-control")) = true) ∧
        (parseCacheControl (headerLookup (lowercaseHeaders ([] : List (String × String)))
          "cache-control")).maxAge ≠ some 0) :=
  ⟨by decide, c6_shouldCache_only_if ⟨HttpMethod.GET, []⟩ ⟨200, []⟩ (by decide)⟩

/-! ## Theorems: C7 (queue invariant) -/

lemma qapply_capacity (s : QueueState) (st : QStep) : (qapply s st).capacity = s.capacity := by
  cases st <;> simp only [qapply] <;> repeat' split
  all_goals rfl

lemma qapply_active_le (s : QueueState) (st : QStep) (h : s.activeCount ≤ s.capacity) :
    (qapply s st).activeCount ≤ (qapply s st).capacity := by
  cases st <;> simp only [qapply] <;> repeat' split
  all_goals simp_all
  all_goals omega

/-- C7: for every queue of positive capacity `N` and every operation
sequence (acquires with live or aborted signals, try-acquires, releases,
close, clear, and waiter aborts), the active count never exceeds `N`: since
the property is quantified over all sequences, it holds at every intermediate
point of any execution. -/
theorem c7_queue_active_le_capacity (n : Nat) (steps : List QStep) (hn : 0 < n) :
    (qrun n steps).activeCount ≤ n := by
  have key : ∀ (l : List QStep) (s : QueueState), s.activeCount ≤ s.capacity →
      (l.foldl qapply s).activeCount ≤ (l.foldl qapply s).capacity := by
    intro l
    induction l with
    | nil => intro s hs; exact hs
    | cons a t ih => intro s hs; exact ih _ (qapply_active_le s a hs)
  have hcap : ∀ (l : List QStep) (s : QueueState), (l.foldl qapply s).capacity = s.capacity := by
    intro l
    induction l with
    | nil => intro s; rfl
    | cons a t ih => intro s; rw [List.foldl_cons, ih, qapply_capacity]
  have h1 := key steps (qinit n) (by simp [qinit])
  rwa [hcap steps (qinit n)] at h1

/-- Witness for C7 at capacity 2 and a concrete operation sequence that
saturates the queue, enqueues a waiter and releases. -/
theorem c7_queue_active_le_capacity_witness :
    0 < 2 ∧ (qrun 2 [QStep.acquire false, QStep.acquire false, QStep.acquire false,
      QStep.release, QStep.tryAcquire, QStep.markWaiterAborted 0, QStep.release,
      QStep.clear]).activeCount ≤ 2 :=
  ⟨by decide, c7_queue_active_le_capacity 2 [QStep.acquire false, QStep.acquire false,
    QStep.acquire false, QStep.release, QStep.tryAcquire, QStep.markWaiterAborted 0,
    QStep.release, QStep.clear] (by decide)⟩

/-! ## Theorems: C8 (event bus handler isolation) -/

lemma runHandlerList_go (hs : List HEntry) (a b : List String) :
    hs.foldl (fun acc h => (acc.1 ++ [h.id], if h.throws then acc.2 ++ [h.id] else acc.2))
        (a, b) =
      (a ++ hs.map HEntry.id, b ++ (hs.filter HEntry.throws).map HEntry.id) := by
  induction hs generalizing a b with
  | nil => simp
  | cons h t ih =>
    simp only [List.foldl_cons]
    rw [ih]
    by_cases ht : h.throws <;> simp [ht, List.filter_cons]

lemma runHandlerList_spec (hs : List HEntry) :
    runHandlerList hs = (hs.map HEntry.id, (hs.filter HEntry.throws).map HEntry.id) := by
  unfold runHandlerList
  rw [runHandlerList_go]
  simp

lemma runPatternLoop_spec (l : List PEntry) :
    runPatternLoop l =
      ((l.takeWhile (fun e => !e.throws)).map PEntry.id ++
          ((l.dropWhile (fun e => !e.throws)).head?.map PEntry.id).toList,
        (l.dropWhile (fun e => !e.throws)).head?.map PEntry.id) := by
  induction l with
  | nil => simp [runPatternLoop]
  | cons e t ih =>
    by_cases he : e.throws
    · simp [runPatternLoop, he, List.takeWhile_cons, List.dropWhile_cons]
    · simp [runPatternLoop, he, List.takeWhile_cons, List.dropWhile_cons, ih]

/-- C8 counterexample: a throwing pattern handler does prevent its sibling
pattern handlers from running: with two `*` subscriptions where the first
throws, only the first is invoked; its error is deferred to a microtask by
`emit`'s rejection handler, but the second handler never runs — contradicting
the claim for pattern handlers. -/
theorem c8_pattern_sibling_counterexample :
    (emitModel "user:create" [] [] [⟨"p1", true, PKind.star, 0⟩,
        ⟨"p2", false, PKind.star, 0⟩]).ran = ["p1"] ∧
      (("p2" ∈ (emitModel "user:create" [] [] [⟨"p1", true, PKind.star, 0⟩,
        ⟨"p2", false, PKind.star, 0⟩]).ran) = False) ∧
      (emitModel "user:create" [] [] [⟨"p1", true, PKind.star, 0⟩,
        ⟨"p2", false, PKind.star, 0⟩]).micro = ["p1"] := by
  refine ⟨by decide, ?_, by decide⟩
  simp only [eq_iff_iff, iff_false]
  decide

/-- C8 amended: exact and any handlers are isolated — every one of them runs
regardless of earlier throws, and each throwing one surfaces on a future
microtask — but pattern handlers are not: the matched pattern handlers run
only up to and including the first throwing one, whose error becomes the
emission's deferred rejection; handlers after it are skipped. -/
theorem c8_handler_isolation (event : String) (exs anys : List HEntry) (pats : List PEntry) :
    (emitModel event exs anys pats).ran =
        (exs ++ anys).map HEntry.id ++
          (((pats.filter (fun p => matchPattern p event)).takeWhile
              (fun e => !e.throws)).map PEntry.id ++
            (((pats.filter (fun p => matchPattern p event)).dropWhile
              (fun e => !e.throws)).head?.map PEntry.id).toList) ∧
      (emitModel event exs anys pats).micro =
        ((exs ++ anys).filter HEntry.throws).map HEntry.id ++
          (((pats.filter (fun p => matchPattern p event)).dropWhile
            (fun e => !e.throws)).head?.map PEntry.id).toList := by
  unfold emitModel
  rw [runHandlerList_spec, runPatternLoop_spec]
  exact ⟨rfl, rfl⟩

/-! ## Theorems: C9 (interceptor ordering) -/

lemma mem_insDesc (i b : Interceptor) (l : List Interceptor) :
    b ∈ insDesc i l ↔ b = i ∨ b ∈ l := by
  induction l with
  | nil => simp [insDesc]
  | cons x xs ih =>
    by_cases hc : prioVal x > prioVal i
    · simp only [insDesc, if_pos hc, List.mem_cons, ih]
      tauto
    · simp only [insDesc, if_neg hc, List.mem_cons]

lemma insDesc_sorted (i : Interceptor) (l : List Interceptor)
    (h : l.Pairwise (fun a b => prioVal b ≤ prioVal a)) :
    (insDesc i l).Pairwise (fun a b => prioVal b ≤ prioVal a) := by
  induction l with
  | nil => simp [insDesc]
  | cons x xs ih =>
    rw [List.pairwise_cons] at h
    by_cases hc : prioVal x > prioVal i
    · rw [show insDesc i (x :: xs) = x :: insDesc i xs by simp [insDesc, hc]]
      rw [List.pairwise_cons]
      refine ⟨?_, ih h.2⟩
      intro b hb
      rcases (mem_insDesc i b xs).mp hb with hb1 | hb2
      · subst hb1; omega
      · exact h.1 b hb2
    · rw [show insDesc i (x :: xs) = i :: x :: xs by simp [insDesc, hc]]
      rw [List.pairwise_cons]
      refine ⟨?_, List.pairwise_cons.mpr h⟩
      intro b hb
      rcases List.mem_cons.mp hb with hb1 | hb2
      · subst hb1; omega
      · have := h.1 b hb2
        omega

lemma sortDesc_sorted (l : List Interceptor) :
    (sortDesc l).Pairwise (fun a b => prioVal b ≤ prioVal a) := by
  induction l with
  | nil => simp [sortDesc]
  | cons x xs ih => exact insDesc_sorted x _ ih

lemma registerAll_sorted (regs : List Interceptor) :
    (registerAll regs).Pairwise (fun a b => prioVal b ≤ prioVal a) := by
  have key : ∀ (rs : List Interceptor) (l : List Interceptor),
      l.Pairwise (fun a b => prioVal b ≤ prioVal a) →
      (rs.foldl usePush l).Pairwise (fun a b => prioVal b ≤ prioVal a) := by
    intro rs
    induction rs with
    | nil => intro l hl; exact hl
    | cons r t ih => intro l _; exact ih _ (sortDesc_sorted _)
  exact key regs [] (by simp)

/-- C9 counterexample: response interceptors do not run in weight-ascending
order: registering weights 1 then 2, the response hooks run as
`["b", "a"]` (weight-descending, the same order as the request hooks), not
`["a", "b"]` as the claim requires. -/
theorem c9_response_order_counterexample :
    responseOrder (registerAll [⟨"a", some 1⟩, ⟨"b", some 2⟩]) = ["b", "a"] ∧
      responseOrder (registerAll [⟨"a", some 1⟩, ⟨"b", some 2⟩]) ≠ ["a", "b"] := by decide

/-- C9 amended: `use` keeps the interceptor list sorted by priority
descending (stably), request hooks are applied in that weight-descending
order, response hooks are applied in the *same* weight-descending order (not
ascending), and error hooks unwind in the reverse order. -/
theorem c9_interceptor_order (regs : List Interceptor) :
    responseOrder (registerAll regs) = requestOrder (registerAll regs) ∧
      errorOrder (registerAll regs) = (requestOrder (registerAll regs)).reverse ∧
      (registerAll regs).Pairwise (fun a b => prioVal b ≤ prioVal a) := by
  refine ⟨rfl, ?_, registerAll_sorted regs⟩
  simp [errorOrder, requestOrder, List.map_reverse]

end EventKit
